import Mathlib

/-!
Shallow embedding of `YT_notes_generator.py` (YouTube Playlist Summarizer &
Q&A Generator) and proofs about its spec claims.

External services (the generative-text service, the playlist-listing API,
the transcript source) are modelled as explicit oracle parameters; every
Python function of the repository is translated into a Lean definition that
mirrors its control flow.  Python exceptions are modelled with `Except`,
`None` with `Option.none`, and the observable side effects relevant to the
claims (model invocations, `time.sleep` calls, skip notices) are recorded in
explicit trace structures.
-/

/-! ## Error-string classification used by `generate_with_gemini`

The source classifies a rate limit by the literal substring `"429"` in the
exception's string form (`if "429" in err_str`), and extracts the suggested
delay with `re.search(r"retry_delay\s*{\s*seconds:\s*(\d+)", err_str)`.
Whitespace (`\s`) and digits (`\d`) are modelled over their ASCII ranges,
which covers every string the claims quantify over. -/

/-- ASCII whitespace, the characters Python's `\s` matches in ASCII range. -/
def isPySpace (c : Char) : Bool :=
  c = ' ' || c = '\t' || c = '\n' || c = '\r' || c = '\x0b' || c = '\x0c'

/-- Substring containment on `List Char`: does `pat` occur inside `l`? -/
def listContainsAux (pat : List Char) : List Char → Bool
  | [] => pat.isEmpty
  | c :: rest => pat.isPrefixOf (c :: rest) || listContainsAux pat rest

/-- `pat in s` of Python, on strings. -/
def strContains (s pat : String) : Bool :=
  listContainsAux pat.data s.data

/-- The `"429" in err_str` test of line 102. -/
def contains429 (e : String) : Bool :=
  strContains e "429"

/-- Match a literal character list as a prefix, returning the remainder. -/
def stripLit : List Char → List Char → Option (List Char)
  | [], l => some l
  | _ :: _, [] => none
  | p :: ps, c :: cs => if p = c then stripLit ps cs else none

/-- Numeric value of a digit string, as `int()` applied to the match group. -/
def natOfDigits (l : List Char) : Nat :=
  l.foldl (fun n c => n * 10 + (c.toNat - '0'.toNat)) 0

/-- Try to match `retry_delay\s*{\s*seconds:\s*(\d+)` at the head of `l`,
returning the parsed group value. -/
def matchRetryDelayAt (l : List Char) : Option Nat := do
  let r1 ← stripLit "retry_delay".data l
  let r2 ← stripLit "\x7b".data (r1.dropWhile isPySpace)
  let r3 ← stripLit "seconds:".data (r2.dropWhile isPySpace)
  let ds := (r3.dropWhile isPySpace).takeWhile Char.isDigit
  if ds.isEmpty then none else some (natOfDigits ds)

/-- `re.search` for the `retry_delay` pattern: leftmost match wins. -/
def searchRetryDelay : List Char → Option Nat
  | [] => none
  | c :: rest =>
    match matchRetryDelayAt (c :: rest) with
    | some n => some n
    | none => searchRetryDelay rest

/-! ## `generate_with_gemini` (lines 93–110)

The generative-text service is two oracles:
`construct m` models `genai.GenerativeModel(m)` — note this call sits
*outside* the `try` in the source, so its exceptions propagate; and
`env m a input` models the `model.generate_content(prompt + text)` call plus
the `response.text` access on attempt `a` (0-based) for model `m`, both of
which sit *inside* the `try`.  The trace records every invocation and every
`time.sleep`. -/

/-- Observable trace of one `generate_with_gemini` call: each
`generate_content` invocation as a `(model_name, attempt)` pair in order,
and each `time.sleep` duration in order. -/
structure GenAcc where
  calls : List (String × Nat)
  sleeps : List Nat
deriving Repr, DecidableEq

/-- The empty trace at entry to the routine. -/
def GenAcc.init : GenAcc := ⟨[], []⟩

/-- The inner `for attempt in range(retries)` loop of lines 96–109 for one
model, starting at attempt index `a` with `k` attempts remaining.  Returns
the updated trace and `some` trimmed response on success, `none` when the
attempts are exhausted or a non-429 failure breaks out. -/
def runAttempts (env : String → Nat → String → Except String String)
    (model_name input : String) : Nat → Nat → GenAcc → GenAcc × Option String
  | _, 0, acc => (acc, none)
  | a, k + 1, acc =>
    let acc := { acc with calls := acc.calls ++ [(model_name, a)] }
    match env model_name a input with
    | .ok t => (acc, some t.trim)
    | .error e =>
      if contains429 e then
        let delay_seconds := (searchRetryDelay e.data).getD 60
        runAttempts env model_name input (a + 1) k
          { acc with sleeps := acc.sleeps ++ [delay_seconds] }
      else
        (acc, none)

/-- The outer `for model_name in model_names` loop of lines 94–109.
`Except.error` in the result models an exception escaping the routine
(possible only from `genai.GenerativeModel`, which is outside the `try`);
`Except.ok none` is the fall-through `return None` of line 110. -/
def runModels (construct : String → Except String Unit)
    (env : String → Nat → String → Except String String) (input : String)
    (retries : Nat) : List String → GenAcc → GenAcc × Except String (Option String)
  | [], acc => (acc, .ok none)
  | m :: ms, acc =>
    match construct m with
    | .error e => (acc, .error e)
    | .ok _ =>
      match runAttempts env m input 0 retries acc with
      | (acc', some t) => (acc', .ok (some t))
      | (acc', none) => runModels construct env input retries ms acc'

/-- `generate_with_gemini(prompt, text, retries=3, model_names=[...])`. -/
def generate_with_gemini (construct : String → Except String Unit)
    (env : String → Nat → String → Except String String)
    (prompt text : String) (retries : Nat := 3)
    (model_names : List String := ["gemini-1.5-flash", "gemini-1.5-pro"]) :
    GenAcc × Except String (Option String) :=
  runModels construct env (prompt ++ text) retries model_names .init

example :
    searchRetryDelay "quota 429 exceeded retry_delay \x7b seconds: 7 \x7d".data
      = some 7 := by decide

example : contains429 "Error 429: too many requests" = true := by decide

/-! ## `get_playlist_id` (lines 42–44)

`re.search(r"(?:list=)([a-zA-Z0-9_-]+)", url)`: the leftmost position where
the literal `list=` is followed by at least one token character matches, and
group 1 is the maximal (greedy) run of token characters after the `=`. -/

/-- The character class `[a-zA-Z0-9_-]` of the playlist-ID pattern. -/
def isTokenChar (c : Char) : Bool :=
  c.isAlpha || c.isDigit || c = '_' || c = '-'

/-- The literal `list=` of the pattern. -/
def listEqLit : List Char := ['l', 'i', 's', 't', '=']

/-- Does the list start with a token character?  (The `+` of the pattern
requires at least one.) -/
def tokenHead : List Char → Bool
  | [] => false
  | c :: _ => isTokenChar c

/-- Scan for the leftmost match of `(?:list=)([a-zA-Z0-9_-]+)` and return
group 1. -/
def goPID : List Char → Option String
  | [] => none
  | c :: rest =>
    if listEqLit.isPrefixOf (c :: rest) && tokenHead ((c :: rest).drop 5) then
      some ⟨((c :: rest).drop 5).takeWhile isTokenChar⟩
    else
      goPID rest

/-- `get_playlist_id(url)`: `match.group(1) if match else None`. -/
def get_playlist_id (url : String) : Option String :=
  goPID url.data

example : get_playlist_id "https://www.youtube.com/playlist?list=PL9a_b-X" = some "PL9a_b-X" := by decide
example : get_playlist_id "https://youtu.be/abc" = none := by decide
example : get_playlist_id "list=!list=AB&x" = some "AB" := by decide

/-! ## `extract_playlist_items` (lines 47–79)

The paginated listing endpoint is modelled as the list of responses it hands
back in request order: each element is either a `Page` (a successful
`request.execute()`) or an error (a raised exception).  The `while True`
loop consumes that list one response per request, stopping when a page has
no `nextPageToken`; the surrounding `try`/`except` turns any raised error —
including the `ValueError` for a missing playlist ID — into `[]`. -/

/-- One playlist item of a response: `contentDetails.get("videoId")` and
`snippet.get("title")`, each possibly absent. -/
structure PageItem where
  videoId : Option String
  title : Option String
deriving Repr, DecidableEq

/-- One `playlistItems().list(...).execute()` response: its items and its
optional `nextPageToken`. -/
structure Page where
  items : List PageItem
  nextPageToken : Option String
deriving Repr, DecidableEq

/-- An accumulated `{"videoId": ..., "title": ...}` record. -/
structure Video where
  videoId : String
  title : String
deriving Repr, DecidableEq

/-- The per-page accumulation of lines 66–70: keep an item when
`if video_id and title:` holds, i.e. both fields are present and non-empty
(Python truthiness). -/
def collectItems (items : List PageItem) : List Video :=
  items.filterMap fun it =>
    match it.videoId, it.title with
    | some v, some t => if v ≠ "" && t ≠ "" then some ⟨v, t⟩ else none
    | _, _ => none

/-- Python truthiness of the continuation token at line 73:
`if not next_page_token: break` stops both on a missing token (`None`) and
on an empty-string token. -/
def tokenTruthy : Option String → Bool
  | none => false
  | some t => !(t == "")

/-- The `while True` paging loop of lines 57–74 over the endpoint's response
sequence.  Returns the number of page requests issued and either the
accumulated videos or the first raised error.  Paging continues only while
the returned `nextPageToken` is truthy (present *and* non-empty), mirroring
`if not next_page_token: break`. -/
def fetchPagesE : List (Except String Page) → Nat × Except String (List Video)
  | [] => (0, .ok [])
  | r :: rest =>
    match r with
    | .error e => (1, .error e)
    | .ok pg =>
      if tokenTruthy pg.nextPageToken then
        let (n, res) := fetchPagesE rest
        (n + 1, res.map (fun vs => collectItems pg.items ++ vs))
      else
        (1, .ok (collectItems pg.items))

/-- `extract_playlist_items(playlist_url)` against a modelled endpoint:
a missing playlist ID raises `ValueError`, and every raised error is caught
by the `except` of lines 77–79, which reports it and returns `[]`. -/
def extract_playlist_items (playlist_url : String)
    (responses : List (Except String Page)) : List Video :=
  match get_playlist_id playlist_url with
  | none => []
  | some _ =>
    match (fetchPagesE responses).2 with
    | .ok videos => videos
    | .error _ => []

/-- A well-formed endpoint behaviour for a finite playlist: at least one
page, every page before the last carries a truthy (present and non-empty)
continuation token, the last carries a falsy one (absent or empty — the
program treats both as "no continuation", line 73). -/
def wellFormedPages : List Page → Prop
  | [] => False
  | [p] => tokenTruthy p.nextPageToken = false
  | p :: rest => tokenTruthy p.nextPageToken = true ∧ wellFormedPages rest

/-! ## The processing loop (lines 151–198) and the aggregate bundles

Per selected video the page fetches the transcript, skips the video with a
notice when `if not transcript:` (transcript `None` *or* the empty string),
and otherwise runs the generator twice, storing truthy results into the
`all_notes` and `all_qas` dicts keyed by title.  The transcript source and
the two generator runs are oracles (`extract_transcript` is memoized by
`st.cache_data`, so a deterministic function is a faithful model); dict
assignment follows Python semantics (update in place when the key exists,
else append). -/

/-- `SUMMARY_PROMPT` of lines 23–31. -/
def SUMMARY_PROMPT : String :=
  "\nYou are an expert notetaker. Create highly structured, easy-to-read, and detailed notes based on the transcript.\nMake it resemble perfect lecture notes. Use markdown formatting with:\n- Clear section headings (###)\n- Bullet points and subpoints\n- Key insights, definitions, and takeaways\n- Use bold or italics to highlight important concepts\nKeep it concise but information-rich (300–500 words). Transcript:\n"

/-- `QA_PROMPT` of lines 33–39. -/
def QA_PROMPT : String :=
  "\nYou are a smart assistant. Based on the transcript below, generate 5–10 high-quality Q&A pairs that cover key ideas.\nUse a markdown list format:\n- **Question:** ...\n  **Answer:** ...\nTranscript:\n"

/-- Python `d[k] = v` on a dict modelled as an insertion-ordered association
list: overwrite in place when the key is present, append otherwise. -/
def dictInsert (d : List (String × String)) (k v : String) :
    List (String × String) :=
  if d.any (fun p => p.1 == k) then
    d.map (fun p => if p.1 == k then (k, v) else p)
  else
    d ++ [(k, v)]

/-- State threaded through the `for idx, vid in enumerate(selected_videos)`
loop: the two aggregate bundles, plus the observable trace of generator
invocations (the `(prompt, transcript)` argument pairs, in order) and of
skip notices (the skipped videos' ids, in order). -/
structure LoopState where
  all_notes : List (String × String)
  all_qas : List (String × String)
  genCalls : List (String × String)
  skipped : List String
deriving Repr, DecidableEq

/-- `all_notes = {}`, `all_qas = {}` of lines 152–153. -/
def LoopState.init : LoopState := ⟨[], [], [], []⟩

/-- The body of the processing loop for one video (lines 156–194):
fetch the transcript, skip on `if not transcript:`, otherwise invoke the
generator for the summary and the Q&A, storing each truthy result under the
video's title. -/
def processVideo (tr : String → Option String)
    (genS genQ : String → Option String) (st : LoopState) (v : Video) :
    LoopState :=
  match tr v.videoId with
  | none => { st with skipped := st.skipped ++ [v.videoId] }
  | some t =>
    if t = "" then
      { st with skipped := st.skipped ++ [v.videoId] }
    else
      let st1 := { st with genCalls := st.genCalls ++ [(SUMMARY_PROMPT, t)] }
      let st2 :=
        match genS t with
        | some summary =>
          if summary ≠ "" then
            { st1 with all_notes := dictInsert st1.all_notes v.title summary }
          else st1
        | none => st1
      let st3 := { st2 with genCalls := st2.genCalls ++ [(QA_PROMPT, t)] }
      match genQ t with
      | some qas =>
        if qas ≠ "" then
          { st3 with all_qas := dictInsert st3.all_qas v.title qas }
        else st3
      | none => st3

/-- The whole processing loop over the selected videos. -/
def processAll (tr genS genQ : String → Option String)
    (videos : List Video) : LoopState :=
  videos.foldl (processVideo tr genS genQ) LoopState.init

/-! ## Concrete oracles used in counterexamples and witnesses -/

/-- A `genai.GenerativeModel` constructor that never raises. -/
def constructOk : String → Except String Unit := fun _ => .ok ()

/-- A rate-limit error string carrying a suggested delay of 2 seconds. -/
def rlErr2 : String :=
  "429 You exceeded your current quota. retry_delay \x7b seconds: 2 \x7d"

/-- A generation service that always rate-limits with `rlErr2`. -/
def envAlways429 : String → Nat → String → Except String String :=
  fun _ _ _ => .error rlErr2

/-! ## Lemmas about the retry loop -/

/-- If every attempt in the window fails with a rate-limit error whose
parsed delay is `d`, the inner retry loop records one call and one sleep of
`d` per attempt — a sleep after *every* failed attempt, the last included —
and exits with `none`. -/
theorem runAttempts_all429 (env : String → Nat → String → Except String String)
    (m input : String) (d : Nat) :
    ∀ (k a0 : Nat) (acc : GenAcc),
      (∀ a, a0 ≤ a → a < a0 + k →
        ∃ e, env m a input = .error e ∧ contains429 e = true ∧
          searchRetryDelay e.data = some d) →
      runAttempts env m input a0 k acc =
        ({ acc with
            calls := acc.calls ++ (List.range k).map (fun i => (m, a0 + i)),
            sleeps := acc.sleeps ++ List.replicate k d }, none) := by
  intro k
  induction k with
  | zero => intro a0 acc _; simp [runAttempts]
  | succ k ih =>
    intro a0 acc h
    obtain ⟨e, he, h429, hd⟩ := h a0 (Nat.le_refl a0) (by omega)
    have hrec := ih (a0 + 1)
      { acc with calls := acc.calls ++ [(m, a0)], sleeps := acc.sleeps ++ [d] }
      (fun a ha1 ha2 => h a (by omega) (by omega))
    simp only [runAttempts, he, h429, hd, Option.getD_some, if_pos]
    rw [hrec]
    simp only [List.range_succ_eq_map, List.map_cons, List.map_map,
      List.replicate_succ]
    have hmap : List.map (fun i => (m, a0 + 1 + i)) (List.range k)
        = List.map ((fun i => (m, a0 + i)) ∘ Nat.succ) (List.range k) := by
      apply List.map_congr_left
      intro i _
      simp only [Function.comp_apply, Nat.succ_eq_add_one, Prod.mk.injEq,
        true_and]
      omega
    simp [List.append_assoc, List.singleton_append, hmap]

/-! ## Claim C1 -/

/-- C1, counterexample: with `retries = 3` and a model that always
rate-limits with suggested delay 2, the claim predicts a total wait of
`2 × (retries − 1) = 4` seconds for that model, but `generate_with_gemini`
sleeps after every one of the 3 failed attempts: its sleep trace is
`[2, 2, 2]`, total 6 ≠ 4. -/
theorem rate_limit_total_wait_counterexample :
    (generate_with_gemini constructOk envAlways429 "p" "t" 3
        ["gemini-1.5-flash"]).1.sleeps = [2, 2, 2]
    ∧ ([2, 2, 2] : List Nat).sum = 6 ∧ (6 : Nat) ≠ 2 * (3 - 1) := by
  refine ⟨by decide, by decide, by decide⟩

/-- C1 (amended): if every invocation of the first model fails with a
rate-limit signal whose parsed suggested delay is `d`, then across
`retries` attempts for that model the routine sleeps `d` seconds after each
failed attempt — a total of `d × retries` seconds, not `d × (retries − 1)` —
and then moves on to the next model in the list, invoking the first model
exactly `retries` times. -/
theorem rate_limit_total_wait_per_model
    (construct : String → Except String Unit)
    (env : String → Nat → String → Except String String)
    (prompt text : String) (retries d : Nat) (m : String) (ms : List String)
    (hc : construct m = .ok ())
    (hrl : ∀ a, a < retries →
      ∃ e, env m a (prompt ++ text) = .error e ∧ contains429 e = true ∧
        searchRetryDelay e.data = some d) :
    generate_with_gemini construct env prompt text retries (m :: ms) =
      runModels construct env (prompt ++ text) retries ms
        ⟨(List.range retries).map (fun a => (m, a)), List.replicate retries d⟩
    ∧ (List.replicate retries d).sum = retries * d := by
  constructor
  · unfold generate_with_gemini
    have hall := runAttempts_all429 env m (prompt ++ text) d retries 0
      GenAcc.init (fun a ha1 ha2 => hrl a (by omega))
    simp only [runModels, hc]
    rw [hall]
    simp [GenAcc.init]
  · simp [List.sum_replicate, smul_eq_mul]

/-- C1, witness for the amended theorem at a concrete input: one model that
always rate-limits with delay 2, `retries = 3`. -/
theorem rate_limit_total_wait_per_model_witness :
    (generate_with_gemini constructOk envAlways429 "p" "t" 3
        ["gemini-1.5-flash", "gemini-1.5-pro"] =
      runModels constructOk envAlways429 ("p" ++ "t") 3 ["gemini-1.5-pro"]
        ⟨(List.range 3).map (fun a => ("gemini-1.5-flash", a)),
          List.replicate 3 2⟩)
    ∧ (List.replicate 3 2).sum = 3 * 2 :=
  rate_limit_total_wait_per_model constructOk envAlways429 "p" "t" 3 2
    "gemini-1.5-flash" ["gemini-1.5-pro"] rfl
    (fun a _ => ⟨rlErr2, rfl, by decide, by decide⟩)

/-! ## Claim C2 -/

/-- C2, counterexample: `genai.GenerativeModel(model_name)` is evaluated
*outside* the `try` block (line 95), so a failure of model construction
propagates out of `generate_with_gemini` instead of collapsing to `None`:
with a constructor that raises, the routine's outcome is a raised error,
not a return. -/
theorem gemini_never_raises_counterexample :
    (generate_with_gemini (fun _ => .error "model construction failed")
        (fun _ _ _ => .ok "ok") "p" "t" 3 ["gemini-1.5-flash"]).2
      = .error "model construction failed"
    ∧ ∀ r : Option String,
        (Except.error "model construction failed" :
          Except String (Option String)) ≠ .ok r := by
  exact ⟨rfl, fun r h => by cases h⟩

/-- Every failure inside the `try` of lines 97–109 is caught, so as long as
model construction succeeds for the models actually reached, `runModels`
ends in a normal return. -/
theorem runModels_construct_ok (construct : String → Except String Unit)
    (env : String → Nat → String → Except String String)
    (input : String) (retries : Nat) :
    ∀ (names : List String) (acc : GenAcc),
      (∀ m ∈ names, construct m = .ok ()) →
      ∃ r, (runModels construct env input retries names acc).2 = Except.ok r := by
  intro names
  induction names with
  | nil => intro acc _; exact ⟨none, rfl⟩
  | cons m ms ih =>
    intro acc h
    have hm := h m (List.mem_cons_self m ms)
    simp only [runModels, hm]
    rcases hra : runAttempts env m input 0 retries acc with ⟨acc', res⟩
    cases res with
    | some t => exact ⟨some t, rfl⟩
    | none => exact ih acc' (fun m' hm' => h m' (List.mem_cons_of_mem m hm'))

/-- C2 (amended): provided model construction succeeds for every model in
the list, `generate_with_gemini` never raises: every failure of a model
invocation or of response handling is caught inside the routine and the
routine ends in a normal return (`Except.ok`), with exhaustion reported as
`none`.  (Unamended, the claim fails because `genai.GenerativeModel` is
called outside the `try` block.) -/
theorem gemini_never_raises_when_construction_succeeds
    (construct : String → Except String Unit)
    (env : String → Nat → String → Except String String)
    (prompt text : String) (retries : Nat) (names : List String)
    (h : ∀ m ∈ names, construct m = .ok ()) :
    ∃ r : Option String,
      (generate_with_gemini construct env prompt text retries names).2
        = Except.ok r :=
  runModels_construct_ok construct env (prompt ++ text) retries names
    GenAcc.init h

/-- C2, witness: the amended theorem at a concrete input. -/
theorem gemini_never_raises_when_construction_succeeds_witness :
    ∃ r : Option String,
      (generate_with_gemini constructOk envAlways429 "p" "t" 3
          ["gemini-1.5-flash", "gemini-1.5-pro"]).2 = Except.ok r :=
  gemini_never_raises_when_construction_succeeds constructOk envAlways429
    "p" "t" 3 ["gemini-1.5-flash", "gemini-1.5-pro"] (fun _ _ => rfl)

/-! ## Claim C3 -/

/-- Shifting the attempt index across one recorded call. -/
theorem calls_range_shift (m : String) (a0 j : Nat) :
    (m, a0) :: (List.range j).map (fun i => (m, (a0 + 1) + i))
      = (List.range (j + 1)).map (fun i => (m, a0 + i)) := by
  simp only [List.range_succ_eq_map, List.map_cons, List.map_map,
    Nat.add_zero, List.cons.injEq, true_and]
  apply List.map_congr_left
  intro i _
  simp only [Function.comp_apply, Nat.succ_eq_add_one, Prod.mk.injEq, true_and]
  omega

/-- If attempt `a0 + j` of a model succeeds with raw text `t` and every
earlier attempt in the window rate-limits, the inner retry loop stops at
that attempt and returns the trimmed text, recording exactly `j + 1`
calls. -/
theorem runAttempts_succeeds (env : String → Nat → String → Except String String)
    (m input t : String) :
    ∀ (j k a0 : Nat) (acc : GenAcc), j < k →
      env m (a0 + j) input = .ok t →
      (∀ i, i < j → ∃ e, env m (a0 + i) input = .error e ∧
        contains429 e = true) →
      ∃ sl, runAttempts env m input a0 k acc =
        ({ acc with
            calls := acc.calls ++ (List.range (j + 1)).map (fun i => (m, a0 + i)),
            sleeps := acc.sleeps ++ sl }, some t.trim) := by
  intro j
  induction j with
  | zero =>
    intro k a0 acc hjk hok _
    obtain ⟨k', rfl⟩ : ∃ k', k = k' + 1 := ⟨k - 1, by omega⟩
    rw [Nat.add_zero] at hok
    refine ⟨[], ?_⟩
    simp only [runAttempts, hok]
    simp [List.range_succ]
  | succ j ih =>
    intro k a0 acc hjk hok hprev
    obtain ⟨k', rfl⟩ : ∃ k', k = k' + 1 := ⟨k - 1, by omega⟩
    obtain ⟨e, he, h429⟩ := hprev 0 (by omega)
    rw [Nat.add_zero] at he
    have hok' : env m ((a0 + 1) + j) input = .ok t := by
      have : (a0 + 1) + j = a0 + (j + 1) := by omega
      rw [this]; exact hok
    have hprev' : ∀ i, i < j → ∃ e', env m ((a0 + 1) + i) input = .error e' ∧
        contains429 e' = true := by
      intro i hi
      obtain ⟨e', he', h4'⟩ := hprev (i + 1) (by omega)
      refine ⟨e', ?_, h4'⟩
      have : (a0 + 1) + i = a0 + (i + 1) := by omega
      rw [this]; exact he'
    obtain ⟨sl, hsl⟩ := ih k' (a0 + 1)
      { acc with
          calls := acc.calls ++ [(m, a0)],
          sleeps := acc.sleeps ++ [(searchRetryDelay e.data).getD 60] }
      (by omega) hok' hprev'
    refine ⟨(searchRetryDelay e.data).getD 60 :: sl, ?_⟩
    simp only [runAttempts, he, h429, if_pos]
    rw [hsl]
    simp only [List.append_assoc, List.singleton_append, calls_range_shift]

/-- C3: if the first model's attempts up to `a` all rate-limit and attempt
`a` (with `a < retries`) succeeds with raw response `t`, then
`generate_with_gemini` returns `t` trimmed immediately: it makes exactly
`a + 1` invocations, all of them on the first model — no further attempt is
made on that model and no later model in the list is ever invoked. -/
theorem gemini_success_returns_immediately
    (construct : String → Except String Unit)
    (env : String → Nat → String → Except String String)
    (prompt text : String) (retries : Nat) (m : String) (ms : List String)
    (a : Nat) (t : String)
    (hc : construct m = .ok ())
    (ha : a < retries)
    (hok : env m a (prompt ++ text) = .ok t)
    (hprev : ∀ i, i < a → ∃ e, env m i (prompt ++ text) = .error e ∧
      contains429 e = true) :
    ∃ sl, generate_with_gemini construct env prompt text retries (m :: ms) =
      (⟨(List.range (a + 1)).map (fun i => (m, i)), sl⟩, .ok (some t.trim)) := by
  obtain ⟨sl, hsl⟩ := runAttempts_succeeds env m (prompt ++ text) t a retries 0
    GenAcc.init ha (by simpa using hok) (by simpa using hprev)
  refine ⟨sl, ?_⟩
  unfold generate_with_gemini
  simp only [runModels, hc]
  rw [hsl]
  simp [GenAcc.init]

/-- A generation service whose first attempt rate-limits and whose second
attempt succeeds with a padded response. -/
def envSecondTry : String → Nat → String → Except String String :=
  fun _ a _ => if a = 0 then .error rlErr2 else .ok "  hello  "

/-- C3, witness: first model succeeds on its second attempt; the call trace
names only the first model, and the returned text is trimmed. -/
theorem gemini_success_returns_immediately_witness :
    ∃ sl, generate_with_gemini constructOk envSecondTry "p" "t" 3
        ["gemini-1.5-flash", "gemini-1.5-pro"] =
      (⟨(List.range 2).map (fun i => ("gemini-1.5-flash", i)), sl⟩,
        .ok (some ("  hello  ").trim)) :=
  gemini_success_returns_immediately constructOk envSecondTry "p" "t" 3
    "gemini-1.5-flash" ["gemini-1.5-pro"] 1 "  hello  " rfl (by omega) rfl
    (fun i hi => ⟨rlErr2, by interval_cases i; rfl, by decide⟩)

/-! ## Claim C4 -/

/-- When every model's invocations fail with a non-rate-limit error, each
model gets exactly one invocation (attempt 0): the `break` of line 109
abandons the remaining attempts and the loop proceeds to the next model,
eventually falling through to `return None` with no sleeps. -/
theorem runModels_all_non429 (construct : String → Except String Unit)
    (env : String → Nat → String → Except String String)
    (input : String) (retries : Nat) (hr : 0 < retries) :
    ∀ (names : List String) (acc : GenAcc),
      (∀ m ∈ names, construct m = .ok ()) →
      (∀ m ∈ names, ∀ a, ∃ e, env m a input = .error e ∧
        contains429 e = false) →
      runModels construct env input retries names acc =
        ({ acc with calls := acc.calls ++ names.map (fun m => (m, 0)) },
          .ok none) := by
  intro names
  induction names with
  | nil => intro acc _ _; simp [runModels]
  | cons m ms ih =>
    intro acc hc herr
    obtain ⟨k, rfl⟩ : ∃ k, retries = k + 1 := ⟨retries - 1, by omega⟩
    obtain ⟨e, he, h429⟩ := herr m (List.mem_cons_self m ms) 0
    have hcm := hc m (List.mem_cons_self m ms)
    have hra : runAttempts env m input 0 (k + 1) acc =
        ({ acc with calls := acc.calls ++ [(m, 0)] }, none) := by
      simp only [runAttempts, he, h429]
      simp
    simp only [runModels, hcm, hra]
    rw [ih { acc with calls := acc.calls ++ [(m, 0)] }
      (fun m' hm' => hc m' (List.mem_cons_of_mem m hm'))
      (fun m' hm' => herr m' (List.mem_cons_of_mem m hm'))]
    simp [List.append_assoc]

/-- C4: if every model invocation fails with a non-rate-limit error (and
model construction succeeds), `generate_with_gemini` returns `None` after
exactly `len(model_names)` invocation attempts — one attempt (attempt 0)
per model, in list order, with no sleeps, the remaining retries abandoned
on the first non-rate-limit failure. -/
theorem gemini_non_rate_limit_one_attempt_per_model
    (construct : String → Except String Unit)
    (env : String → Nat → String → Except String String)
    (prompt text : String) (retries : Nat) (names : List String)
    (hr : 0 < retries)
    (hc : ∀ m ∈ names, construct m = .ok ())
    (herr : ∀ m ∈ names, ∀ a, ∃ e, env m a (prompt ++ text) = .error e ∧
      contains429 e = false) :
    generate_with_gemini construct env prompt text retries names =
      (⟨names.map (fun m => (m, 0)), []⟩, .ok none)
    ∧ (names.map (fun m => (m, 0))).length = names.length := by
  refine ⟨?_, by simp⟩
  unfold generate_with_gemini
  rw [runModels_all_non429 construct env (prompt ++ text) retries hr names
    GenAcc.init hc herr]
  simp [GenAcc.init]

/-- A generation service that always fails with a non-rate-limit error. -/
def envServerErr : String → Nat → String → Except String String :=
  fun _ _ _ => .error "500 internal server error"

/-- C4, witness: two models, both always failing without a rate-limit
signal: exactly one invocation per model and a `None` result. -/
theorem gemini_non_rate_limit_one_attempt_per_model_witness :
    (generate_with_gemini constructOk envServerErr "p" "t" 3
        ["gemini-1.5-flash", "gemini-1.5-pro"] =
      (⟨[("gemini-1.5-flash", 0), ("gemini-1.5-pro", 0)], []⟩, .ok none))
    ∧ ((["gemini-1.5-flash", "gemini-1.5-pro"].map
        (fun m => (m, 0))).length = 2) :=
  gemini_non_rate_limit_one_attempt_per_model constructOk envServerErr
    "p" "t" 3 ["gemini-1.5-flash", "gemini-1.5-pro"] (by omega)
    (fun _ _ => rfl)
    (fun m _ a => ⟨"500 internal server error", rfl, by decide⟩)

/-! ## Claim C5 -/

/-- The inner retry loop makes at most `k` invocations when `k` attempts
remain. -/
theorem runAttempts_calls_le (env : String → Nat → String → Except String String)
    (m input : String) :
    ∀ (k a0 : Nat) (acc : GenAcc),
      (runAttempts env m input a0 k acc).1.calls.length
        ≤ acc.calls.length + k := by
  intro k
  induction k with
  | zero => intro a0 acc; simp [runAttempts]
  | succ k ih =>
    intro a0 acc
    cases henv : env m a0 input with
    | ok t => simp [runAttempts, henv]
    | error e =>
      simp only [runAttempts, henv]
      split
      · have hrec := ih (a0 + 1)
          { acc with
              calls := acc.calls ++ [(m, a0)],
              sleeps := acc.sleeps ++ [(searchRetryDelay e.data).getD 60] }
        simp only [List.length_append, List.length_singleton] at hrec
        omega
      · simp

/-- The outer loop makes at most `names.length * retries` invocations. -/
theorem runModels_calls_le (construct : String → Except String Unit)
    (env : String → Nat → String → Except String String)
    (input : String) (retries : Nat) :
    ∀ (names : List String) (acc : GenAcc),
      (runModels construct env input retries names acc).1.calls.length
        ≤ acc.calls.length + names.length * retries := by
  intro names
  induction names with
  | nil => intro acc; simp [runModels]
  | cons m ms ih =>
    intro acc
    simp only [runModels]
    cases hcm : construct m with
    | error e => simp
    | ok u =>
      rcases hra : runAttempts env m input 0 retries acc with ⟨acc', res⟩
      have hle : acc'.calls.length ≤ acc.calls.length + retries := by
        have := runAttempts_calls_le env m input retries 0 acc
        rw [hra] at this
        exact this
      cases res with
      | some t =>
        simp only [List.length_cons, Nat.succ_mul]
        omega
      | none =>
        have := ih acc'
        simp only [List.length_cons, Nat.succ_mul]
        omega

/-- With `retries = 0` the inner loop body never runs: each model is
constructed and then skipped, and line 110 returns `None`. -/
theorem runModels_retries_zero (construct : String → Except String Unit)
    (env : String → Nat → String → Except String String) (input : String) :
    ∀ (names : List String) (acc : GenAcc),
      (∀ m ∈ names, construct m = .ok ()) →
      runModels construct env input 0 names acc = (acc, .ok none) := by
  intro names
  induction names with
  | nil => intro acc _; rfl
  | cons m ms ih =>
    intro acc hc
    have hcm := hc m (List.mem_cons_self m ms)
    simp only [runModels, hcm, runAttempts]
    exact ih acc (fun m' hm' => hc m' (List.mem_cons_of_mem m hm'))

/-- C5: `generate_with_gemini` performs at most
`len(model_names) × retries` invocation attempts (and terminates, being a
total function); with an empty model list it performs zero invocations and
returns `None`, and with `retries = 0` (and constructible models) it
likewise performs zero invocations and returns `None`. -/
theorem gemini_invocation_bound_and_degenerate
    (construct : String → Except String Unit)
    (env : String → Nat → String → Except String String)
    (prompt text : String) (retries : Nat) (names : List String) :
    (generate_with_gemini construct env prompt text retries names).1.calls.length
        ≤ names.length * retries
    ∧ (names = [] →
        generate_with_gemini construct env prompt text retries names
          = (GenAcc.init, .ok none))
    ∧ (retries = 0 → (∀ m ∈ names, construct m = .ok ()) →
        generate_with_gemini construct env prompt text retries names
          = (GenAcc.init, .ok none)) := by
  refine ⟨?_, ?_, ?_⟩
  · have := runModels_calls_le construct env (prompt ++ text) retries names
      GenAcc.init
    simpa [generate_with_gemini, GenAcc.init] using this
  · intro h
    subst h
    rfl
  · intro h hc
    subst h
    exact runModels_retries_zero construct env (prompt ++ text) names
      GenAcc.init hc

/-- C5, witness: both degenerate cases at once (`model_names = []`,
`retries = 0`): zero invocations, `None` result. -/
theorem gemini_invocation_bound_and_degenerate_witness :
    generate_with_gemini constructOk envAlways429 "p" "t" 0 []
      = (GenAcc.init, .ok none) :=
  (gemini_invocation_bound_and_degenerate constructOk envAlways429
    "p" "t" 0 []).2.1 rfl

/-! ## Claim C6 -/

/-- C6, counterexample: `"list=ABC123X"` contains the substring
`list=ABC123`, yet `get_playlist_id` returns the *maximal* token after
`list=`, namely `"ABC123X"`, not `"ABC123"`. -/
theorem playlist_id_exact_token_counterexample :
    strContains "list=ABC123X" "list=ABC123" = true
    ∧ get_playlist_id "list=ABC123X" = some "ABC123X"
    ∧ some ("ABC123X" : String) ≠ some "ABC123" := by
  refine ⟨by decide, by decide, by decide⟩

/-- A non-empty prefix of `list=` followed by another `list=` cannot itself
begin the pattern: any `list=` occurrence starting inside `cs` lies wholly
inside `cs`. -/
theorem listEq_prefix_span (rest2 : List Char) :
    ∀ cs : List Char, cs ≠ [] →
      listEqLit.isPrefixOf (cs ++ ('l' :: 'i' :: 's' :: 't' :: '=' :: rest2))
        = true →
      listEqLit.isPrefixOf cs = true := by
  intro cs
  match cs with
  | [] => intro h _; exact absurd rfl h
  | [a] => intro _ h; simp [listEqLit, List.isPrefixOf] at h
  | [a, b] => intro _ h; simp [listEqLit, List.isPrefixOf] at h
  | [a, b, c] => intro _ h; simp [listEqLit, List.isPrefixOf] at h
  | [a, b, c, d] => intro _ h; simp [listEqLit, List.isPrefixOf] at h
  | a :: b :: c :: d :: e :: cs' =>
    intro _ h
    simp only [List.cons_append, listEqLit, List.isPrefixOf,
      Bool.and_eq_true] at h ⊢
    exact ⟨h.1, h.2.1, h.2.2.1, h.2.2.2.1, h.2.2.2.2.1, trivial⟩

/-- Scanning a region with no `list=` occurrence skips it entirely. -/
theorem goPID_skip (rest2 : List Char) :
    ∀ cs : List Char, listContainsAux listEqLit cs = false →
      goPID (cs ++ ('l' :: 'i' :: 's' :: 't' :: '=' :: rest2))
        = goPID ('l' :: 'i' :: 's' :: 't' :: '=' :: rest2) := by
  intro cs
  induction cs with
  | nil => intro _; rfl
  | cons c cs' ih =>
    intro h
    rw [listContainsAux, Bool.or_eq_false_iff] at h
    have hpre : listEqLit.isPrefixOf
        ((c :: cs') ++ ('l' :: 'i' :: 's' :: 't' :: '=' :: rest2)) = false := by
      cases hp : listEqLit.isPrefixOf
          ((c :: cs') ++ ('l' :: 'i' :: 's' :: 't' :: '=' :: rest2)) with
      | false => rfl
      | true =>
        have := listEq_prefix_span rest2 (c :: cs') (by simp) hp
        rw [this] at h
        exact absurd h.1 (by simp)
    rw [List.cons_append, goPID]
    simp only [List.cons_append] at hpre
    simp only [hpre, Bool.false_and, Bool.false_eq_true, if_false]
    exact ih h.2

/-- A string with no `list=` occurrence yields no playlist ID. -/
theorem goPID_no_match :
    ∀ l : List Char, listContainsAux listEqLit l = false → goPID l = none := by
  intro l
  induction l with
  | nil => intro _; rfl
  | cons c rest ih =>
    intro h
    rw [listContainsAux, Bool.or_eq_false_iff] at h
    rw [goPID]
    simp only [h.1, Bool.false_and, Bool.false_eq_true, if_false]
    exact ih h.2

/-- C6 (amended): `get_playlist_id` returns the *leftmost, maximal* token
after `list=`.  For every URL of the form `p ++ "list=ABC123" ++ s` where
the prefix `p` contains no `list=` occurrence and `s` does not start with a
token character, it returns exactly `"ABC123"`; and for every URL not
containing `list=`, it returns `None`.  (Unamended, the claim fails: a URL
such as `"list=ABC123X"` contains the substring `list=ABC123` but yields
the longer token.)  It is a pure total function. -/
theorem playlist_id_extraction_amended :
    (∀ p s : String, strContains p "list=" = false → tokenHead s.data = false →
      get_playlist_id (p ++ "list=ABC123" ++ s) = some "ABC123")
    ∧ (∀ url : String, strContains url "list=" = false →
      get_playlist_id url = none) := by
  constructor
  · intro p s hp hs
    unfold get_playlist_id
    have hdata : (p ++ "list=ABC123" ++ s).data
        = p.data ++ ('l' :: 'i' :: 's' :: 't' :: '=' ::
            ('A' :: 'B' :: 'C' :: '1' :: '2' :: '3' :: s.data)) := by
      simp [String.data_append]
    rw [hdata, goPID_skip _ p.data (by simpa [strContains] using hp)]
    rw [goPID]
    have hcond : listEqLit.isPrefixOf
        ('l' :: 'i' :: 's' :: 't' :: '=' ::
          ('A' :: 'B' :: 'C' :: '1' :: '2' :: '3' :: s.data)) = true := by
      simp [listEqLit, List.isPrefixOf]
    have htok : tokenHead
        ('A' :: 'B' :: 'C' :: '1' :: '2' :: '3' :: s.data) = true := by
      change isTokenChar 'A' = true
      decide
    have htw : List.takeWhile isTokenChar
        ('A' :: 'B' :: 'C' :: '1' :: '2' :: '3' :: s.data)
          = 'A' :: 'B' :: 'C' :: '1' :: '2' :: '3' ::
            List.takeWhile isTokenChar s.data := by
      simp [List.takeWhile_cons, isTokenChar]
    have htw0 : List.takeWhile isTokenChar s.data = [] := by
      cases hsd : s.data with
      | nil => rfl
      | cons d ds =>
        have hd : isTokenChar d = false := by
          have := hs
          rw [hsd, tokenHead] at this
          exact this
        simp [List.takeWhile_cons, hd]
    simp [hcond, htok, htw, htw0]
  · intro url h
    exact goPID_no_match url.data (by simpa [strContains] using h)

/-- C6, witness for the amended theorem: a realistic URL for the positive
direction, a `list=`-free URL for the absence direction. -/
theorem playlist_id_extraction_amended_witness :
    get_playlist_id ("https://www.youtube.com/playlist?" ++ "list=ABC123"
        ++ "&index=1") = some "ABC123"
    ∧ get_playlist_id "https://youtu.be/dQw4w9WgXcQ" = none :=
  ⟨playlist_id_extraction_amended.1 "https://www.youtube.com/playlist?"
      "&index=1" (by decide) (by decide),
    playlist_id_extraction_amended.2 "https://youtu.be/dQw4w9WgXcQ"
      (by decide)⟩

/-! ## Claim C7 -/

/-- One paging step on a successful page that carries a truthy
continuation token: request it, keep its items, continue. -/
theorem fetchPagesE_cons_truthy (p : Page)
    (htok : tokenTruthy p.nextPageToken = true)
    (rs : List (Except String Page)) :
    fetchPagesE (.ok p :: rs) =
      ((fetchPagesE rs).1 + 1,
        (fetchPagesE rs).2.map (fun vs => collectItems p.items ++ vs)) := by
  simp [fetchPagesE, htok]

/-- Over a well-formed paginated source, the paging loop visits every page
— one request per page, stopping at the first page with a falsy
continuation token — and accumulates the kept items of every page in
source order. -/
theorem fetchPagesE_all_pages :
    ∀ ps : List Page, wellFormedPages ps →
      fetchPagesE (ps.map Except.ok)
        = (ps.length, .ok (ps.flatMap (fun p => collectItems p.items))) := by
  intro ps
  induction ps with
  | nil => intro hf; exact absurd hf (by simp [wellFormedPages])
  | cons p rest ih =>
    intro hf
    cases rest with
    | nil =>
      have hp : tokenTruthy p.nextPageToken = false := hf
      simp [fetchPagesE, hp]
    | cons q rest' =>
      obtain ⟨hp, hf2⟩ := hf
      rw [List.map_cons, fetchPagesE_cons_truthy p hp, ih hf2]
      simp [Except.map]

/-- C7: for every URL with a playlist ID and every well-formed paginated
source, `extract_playlist_items` returns exactly the items that have both a
(truthy) `videoId` and a (truthy) `title`, as `{videoId, title}` records in
the source's returned order across all pages, issuing one page request per
page until a page carries no (truthy) continuation token. -/
theorem extract_items_enumerates_all_pages (url pid : String)
    (pages : List Page)
    (hpid : get_playlist_id url = some pid)
    (hwf : wellFormedPages pages) :
    extract_playlist_items url (pages.map Except.ok)
      = pages.flatMap (fun p => collectItems p.items)
    ∧ (fetchPagesE (pages.map Except.ok)).1 = pages.length := by
  have key := fetchPagesE_all_pages pages hwf
  constructor
  · unfold extract_playlist_items
    rw [hpid, key]
  · rw [key]

/-- C7, witness: a two-page source with one field-incomplete item. -/
theorem extract_items_enumerates_all_pages_witness :
    extract_playlist_items "x?list=PL1"
        (([⟨[⟨some "v1", some "T1"⟩, ⟨none, some "T2"⟩], some "tok"⟩,
          ⟨[⟨some "v3", some "T3"⟩], none⟩] : List Page).map Except.ok)
      = [⟨"v1", "T1"⟩, ⟨"v3", "T3"⟩]
    ∧ (fetchPagesE (([⟨[⟨some "v1", some "T1"⟩, ⟨none, some "T2"⟩], some "tok"⟩,
          ⟨[⟨some "v3", some "T3"⟩], none⟩] : List Page).map Except.ok)).1 = 2 := by
  have h := extract_items_enumerates_all_pages "x?list=PL1" "PL1"
    [⟨[⟨some "v1", some "T1"⟩, ⟨none, some "T2"⟩], some "tok"⟩,
      ⟨[⟨some "v3", some "T3"⟩], none⟩] (by decide) ⟨by decide, by exact rfl⟩
  exact ⟨h.1.trans (by decide), h.2⟩

/-! ## Claim C8 -/

/-- A transport error reached while every earlier page's token is truthy
makes the whole fetch error out, discarding the videos accumulated so
far.  (With a falsy token the loop would have stopped before the failing
request.) -/
theorem fetchPagesE_error (e : String) (rest : List (Except String Page)) :
    ∀ ps : List Page, (∀ p ∈ ps, tokenTruthy p.nextPageToken = true) →
      (fetchPagesE (ps.map Except.ok ++ .error e :: rest)).2 = .error e := by
  intro ps
  induction ps with
  | nil => intro _; rfl
  | cons p ps' ih =>
    intro hall
    have ihe := ih (fun p' hp' => hall p' (List.mem_cons_of_mem p hp'))
    rw [List.map_cons, List.cons_append,
      fetchPagesE_cons_truthy p (hall p (List.mem_cons_self p ps'))]
    simp only [ihe]
    rfl

/-- C8: `extract_playlist_items` never raises; it returns the empty list
both when the URL contains no playlist ID (the raised `ValueError` is
caught) and when a page request actually issued during paging raises a
transport or API error (every page before the failing request carrying a
truthy continuation token, so the loop reaches it). -/
theorem extract_items_failure_returns_empty (url : String) :
    (get_playlist_id url = none →
      ∀ responses, extract_playlist_items url responses = [])
    ∧ (∀ (pages : List Page) (e : String)
        (rest : List (Except String Page)),
        (∀ p ∈ pages, tokenTruthy p.nextPageToken = true) →
        extract_playlist_items url (pages.map Except.ok ++ .error e :: rest)
          = []) := by
  constructor
  · intro h responses
    simp [extract_playlist_items, h]
  · intro pages e rest hall
    unfold extract_playlist_items
    cases hpid : get_playlist_id url with
    | none => rfl
    | some pid =>
      rw [fetchPagesE_error e rest pages hall]

/-- C8, witness: an invalid URL, and a valid URL whose second page request
raises. -/
theorem extract_items_failure_returns_empty_witness :
    extract_playlist_items "https://youtu.be/abc" [] = []
    ∧ extract_playlist_items "x?list=PL1"
        (([⟨[⟨some "v1", some "T1"⟩], some "tok"⟩] : List Page).map Except.ok
          ++ .error "HttpError 503" :: []) = [] :=
  ⟨(extract_items_failure_returns_empty "https://youtu.be/abc").1
      (by decide) [],
    (extract_items_failure_returns_empty "x?list=PL1").2
      [⟨[⟨some "v1", some "T1"⟩], some "tok"⟩] "HttpError 503" []
      (by intro p hp; simp at hp; subst hp; rfl)⟩

/-! ## Claim C9 -/

/-- C9: the skip test of line 167 is `if not transcript:`, which is true
for the empty string exactly as for `None`.  A video whose transcript is
`some ""` (or `none`) is therefore skipped with a notice and *nothing else
changes*: no generation call is made for it and neither aggregate bundle
gains an entry. -/
theorem empty_transcript_video_skipped (tr genS genQ : String → Option String)
    (st : LoopState) (v : Video)
    (h : tr v.videoId = some "" ∨ tr v.videoId = none) :
    processVideo tr genS genQ st v
      = { st with skipped := st.skipped ++ [v.videoId] } := by
  cases h with
  | inl h => simp [processVideo, h]
  | inr h => simp [processVideo, h]

/-- C9, witness: a single video whose fetched transcript is the empty
string, starting from the initial loop state. -/
theorem empty_transcript_video_skipped_witness :
    processVideo (fun _ => some "") (fun t => some ("S:" ++ t))
        (fun t => some ("Q:" ++ t)) LoopState.init ⟨"vid1", "Title"⟩
      = { LoopState.init with skipped := ["vid1"] } :=
  empty_transcript_video_skipped (fun _ => some "") (fun t => some ("S:" ++ t))
    (fun t => some ("Q:" ++ t)) LoopState.init ⟨"vid1", "Title"⟩ (Or.inl rfl)

/-! ## Claim C10 -/

/-- C10: the aggregate bundles are dicts keyed by video title
(`all_notes[title] = summary`, `all_qas[title] = qas`), so when two
processed videos share a title and both generations succeed (with truthy
results), the later video's results overwrite the earlier one's: each
bundle ends with exactly one entry for that title, holding the
later-written value. -/
theorem duplicate_title_overwrites (tr genS genQ : String → Option String)
    (v1 v2 : Video) (t1 t2 s1 s2 q1 q2 : String)
    (htitle : v1.title = v2.title)
    (htr1 : tr v1.videoId = some t1) (ht1 : t1 ≠ "")
    (htr2 : tr v2.videoId = some t2) (ht2 : t2 ≠ "")
    (hs1 : genS t1 = some s1) (hs1n : s1 ≠ "")
    (hs2 : genS t2 = some s2) (hs2n : s2 ≠ "")
    (hq1 : genQ t1 = some q1) (hq1n : q1 ≠ "")
    (hq2 : genQ t2 = some q2) (hq2n : q2 ≠ "") :
    (processAll tr genS genQ [v1, v2]).all_notes = [(v2.title, s2)]
    ∧ (processAll tr genS genQ [v1, v2]).all_qas = [(v2.title, q2)] := by
  simp [processAll, processVideo, LoopState.init, htr1, htr2, ht1, ht2,
    hs1, hs2, hq1, hq2, hs1n, hs2n, hq1n, hq2n, dictInsert, htitle]

/-- C10, witness: two distinct videos sharing one title, both fully
successful; the bundles keep only the second video's results. -/
theorem duplicate_title_overwrites_witness :
    (processAll (fun id => if id = "a" then some "tA" else some "tB")
        (fun t => some ("S:" ++ t)) (fun t => some ("Q:" ++ t))
        [⟨"a", "Same Title"⟩, ⟨"b", "Same Title"⟩]).all_notes
      = [("Same Title", "S:" ++ "tB")]
    ∧ (processAll (fun id => if id = "a" then some "tA" else some "tB")
        (fun t => some ("S:" ++ t)) (fun t => some ("Q:" ++ t))
        [⟨"a", "Same Title"⟩, ⟨"b", "Same Title"⟩]).all_qas
      = [("Same Title", "Q:" ++ "tB")] :=
  duplicate_title_overwrites
    (fun id => if id = "a" then some "tA" else some "tB")
    (fun t => some ("S:" ++ t)) (fun t => some ("Q:" ++ t))
    ⟨"a", "Same Title"⟩ ⟨"b", "Same Title"⟩
    "tA" "tB" ("S:" ++ "tA") ("S:" ++ "tB") ("Q:" ++ "tA") ("Q:" ++ "tB")
    rfl (by decide) (by decide) (by decide) (by decide)
    (by decide) (by decide) (by decide) (by decide)
    (by decide) (by decide) (by decide) (by decide)
